import Mathlib

/-!
The no-op WiredTiger compressor (`ext/compressors/nop/nop_compress.c`)

A shallow embedding of the callbacks of the pass-through compressor and the
properties of the codec contract that hold (or fail) on them.

Conventions of the embedding

* `uint8_t` is `Fin 256`; `size_t` values are natural numbers (the code does no
  arithmetic on them, only one unsigned comparison); `int` values are integers.
* A pointer to a buffer is modelled by the memory object it points to, a list
  of bytes whose length is the number of bytes that may be accessed through the
  pointer.  The length arguments `src_len` and `dst_len` are separate values,
  exactly as in the C signatures.
* `memcpy` is bounds-checked against the two memory objects: an access outside
  one of them is a `Fault` (undefined behaviour in C), so the callbacks return
  `Except Fault _`.
* The out-parameters `*result_lenp` and `*compression_failed` are fields of the
  explicit state, so their values before the call are inputs of the model.
* The heap is the list of live blocks; `calloc` and `free` follow their library
  contracts.  The host side of the registration (`get_extension_api`,
  `add_compressor`) is a parameter, and `wiredtiger_extension_init` returns the
  trace of the calls it made to `add_compressor`.
-/

namespace NopCompress

/-- The C type `uint8_t`. -/
abbrev Byte := Fin 256

/-- An opaque pointer (`WT_COMPRESSOR *`, `WT_SESSION *`), identified by its address. -/
abbrev Ptr := Nat

/-- An access outside a memory object: undefined behaviour of the C program. -/
inductive Fault where
  | read_out_of_bounds (index : Nat)
  | write_out_of_bounds (index : Nat)
  deriving DecidableEq, Repr

/-- The memory a callback can touch: the two buffers and the two out-parameters. -/
structure State where
  /-- memory object behind `src` -/
  src : List Byte
  /-- memory object behind `dst` -/
  dst : List Byte
  /-- the cell `*result_lenp` -/
  result_len : Nat
  /-- the cell `*compression_failed` -/
  compression_failed : Int
  deriving DecidableEq, Repr

deriving instance DecidableEq for Except

/-- The copy loop of `memcpy`: `k` more bytes, starting at offset `i`.  Each
iteration reads `src[i]` and writes it to `dst[i]`. -/
def memcpy_loop (dst src : List Byte) (i : Nat) : Nat → Except Fault (List Byte)
  | 0 => .ok dst
  | k + 1 =>
    match src[i]? with
    | none => .error (.read_out_of_bounds i)
    | some b =>
      if i < dst.length then memcpy_loop (dst.set i b) src (i + 1) k
      else .error (.write_out_of_bounds i)

/-- The call `memcpy(dst, src, n)` on two distinct memory objects. -/
def memcpy (dst src : List Byte) (n : Nat) : Except Fault (List Byte) :=
  memcpy_loop dst src 0 n

/-- The callback `nop_compress`: returns the `int` result and the memory after the call. -/
def nop_compress (compressor session : Ptr) (src_len dst_len : Nat) (st : State) :
    Except Fault (Int × State) :=
  let _ := compressor
  let _ := session
  -- *compression_failed = 0;
  let st := { st with compression_failed := 0 }
  -- if (dst_len < src_len) { *compression_failed = 1; return (0); }
  if dst_len < src_len then
    .ok (0, { st with compression_failed := 1 })
  else
    -- memcpy(dst, src, src_len);
    match memcpy st.dst st.src src_len with
    | .error f => .error f
    | .ok d =>
      -- *result_lenp = src_len; return (0);
      .ok (0, { st with dst := d, result_len := src_len })

/-- The callback `nop_decompress`; `src_len` is an unused parameter.  The
signature has no `compression_failed` parameter, so that cell is never touched. -/
def nop_decompress (compressor session : Ptr) (src_len dst_len : Nat) (st : State) :
    Except Fault (Int × State) :=
  let _ := compressor
  let _ := session
  let _ := src_len
  -- memcpy(dst, src, dst_len);
  match memcpy st.dst st.src dst_len with
  | .error f => .error f
  | .ok d =>
    -- *result_lenp = dst_len; return (0);
    .ok (0, { st with dst := d, result_len := dst_len })

/-- The callback `nop_pre_size`; `src` is an unused parameter and the
signature has neither `dst` nor `compression_failed`: only `*result_lenp` is written. -/
def nop_pre_size (compressor session : Ptr) (src_len : Nat) (st : State) :
    Except Fault (Int × State) :=
  let _ := compressor
  let _ := session
  -- *result_lenp = src_len; return (0);
  .ok (0, { st with result_len := src_len })

/-- The bytes of the string "hello". -/
def hello : List Byte := [104, 101, 108, 108, 111]

/-- Reference definition of compress, following the words of the
specification: if `destination_len < source_len`, set `compression_failed` and
return success with no data written; otherwise copy all `source_len` bytes and
report `result_len = source_len` (with `compression_failed` false). -/
def compress_reference (source_len destination_len : Nat) (st : State) : Int × State :=
  if destination_len < source_len then
    (0, { st with compression_failed := 1 })
  else
    (0, { st with dst := st.src.take source_len ++ st.dst.drop source_len,
                  result_len := source_len, compression_failed := 0 })

/-- What the caller observes of a call: the return code, and after the call
the cells `*result_lenp` and `*compression_failed` and the destination. -/
def outputs (res : Except Fault (Int × State)) : Except Fault (Int × Nat × Int × List Byte) :=
  match res with
  | .error f => .error f
  | .ok (ret, st) => .ok (ret, st.result_len, st.compression_failed, st.dst)

/-- The call `free(p)` of the C library on the set of live heap blocks: `p`
must be a live block, which is released; otherwise the behaviour is undefined
(`none`). -/
def free (heap : List Ptr) (p : Ptr) : Option (List Ptr) :=
  if p ∈ heap then some (heap.erase p) else none

/-- The callback `nop_terminate`: returns the `int` result and the heap after the call. -/
def nop_terminate (compressor session : Ptr) (heap : List Ptr) : Option (Int × List Ptr) :=
  let _ := session
  -- free(compressor);
  match free heap compressor with
  | none => none
  | some heap =>
    -- return (0);
    some (0, heap)

/-- The four callbacks of the file, as values of function pointers. -/
inductive Callback where
  | nop_compress
  | nop_decompress
  | nop_pre_size
  | nop_terminate
  deriving DecidableEq, Repr

/-- Modelled from the spec: the structure type `WT_COMPRESSOR` is declared in
`wiredtiger.h`, which is not among the sources.  It is the structure of callback
pointers handed to the host at registration; the fields are the five that
`wiredtiger_extension_init` assigns, and a null pointer is `none`. -/
structure WT_COMPRESSOR where
  compress : Option Callback
  compress_raw : Option Callback
  decompress : Option Callback
  pre_size : Option Callback
  terminate : Option Callback
  deriving DecidableEq, Repr

/-- The local compressor structure `NOP_COMPRESSOR`. -/
structure NOP_COMPRESSOR where
  /-- the field `compressor`, which must come first -/
  compressor : WT_COMPRESSOR
  /-- the field `wt_api`, the extension API -/
  wt_api : Option Ptr
  deriving DecidableEq, Repr

/-- One call of `connection->add_compressor`, as the host receives it: its four
arguments and the contents of the structure the third one points to. -/
structure AddCompressorCall where
  connection : Ptr
  name : String
  compressor : Ptr
  contents : NOP_COMPRESSOR
  config : Option Ptr
  deriving DecidableEq, Repr

/-- Modelled from the spec: the host around `wiredtiger_extension_init`, none of
which is among the sources: the methods `get_extension_api` and `add_compressor`
of `WT_CONNECTION` (the services handle and the registration function of the
host), together with the state of the C library, `errno` and the heap. -/
structure Host where
  /-- value of the macro `ENOMEM` of `errno.h` -/
  ENOMEM : Int
  /-- value of `errno` before the call -/
  errno : Int
  /-- address of the block the next `calloc` hands out; `none` when memory is exhausted -/
  calloc_block : Option Ptr
  /-- result of `connection->get_extension_api(connection)` -/
  get_extension_api : Ptr → Ptr
  /-- return code of `connection->add_compressor(...)` -/
  add_compressor : AddCompressorCall → Int

/-- The call `calloc(1, sizeof(NOP_COMPRESSOR))` by its POSIX contract: the
address of a zero-filled block, or a null pointer with `errno` set to `ENOMEM`.
Returns the pointer and the value of `errno` after the call. -/
def calloc (host : Host) : Option Ptr × Int :=
  match host.calloc_block with
  | some p => (some p, host.errno)
  | none => (none, host.ENOMEM)

/-- A zero-filled `NOP_COMPRESSOR`: every pointer is null. -/
def zeroed : NOP_COMPRESSOR :=
  { compressor := { compress := none, compress_raw := none, decompress := none,
                    pre_size := none, terminate := none },
    wt_api := none }

/-- What `wiredtiger_extension_init` leaves behind: its return code, the calls
it made to `add_compressor`, and the block it allocated with its contents. -/
structure InitOutcome where
  ret : Int
  calls : List AddCompressorCall
  handle : Option (Ptr × NOP_COMPRESSOR)
  deriving DecidableEq, Repr

/-- The entry point `wiredtiger_extension_init`; `config` is an unused parameter. -/
def wiredtiger_extension_init (host : Host) (connection config : Ptr) : InitOutcome :=
  let _ := config
  -- if ((nop_compressor = calloc(1, sizeof(NOP_COMPRESSOR))) == NULL) return (errno);
  match calloc host with
  | (none, errno) => { ret := errno, calls := [], handle := none }
  | (some p, _) =>
    let nop_compressor : NOP_COMPRESSOR := zeroed
    -- nop_compressor->compressor.compress = nop_compress;
    let nop_compressor := { nop_compressor with
      compressor := { nop_compressor.compressor with compress := some Callback.nop_compress } }
    -- nop_compressor->compressor.compress_raw = NULL;
    let nop_compressor := { nop_compressor with
      compressor := { nop_compressor.compressor with compress_raw := none } }
    -- nop_compressor->compressor.decompress = nop_decompress;
    let nop_compressor := { nop_compressor with
      compressor := { nop_compressor.compressor with decompress := some Callback.nop_decompress } }
    -- nop_compressor->compressor.pre_size = nop_pre_size;
    let nop_compressor := { nop_compressor with
      compressor := { nop_compressor.compressor with pre_size := some Callback.nop_pre_size } }
    -- nop_compressor->compressor.terminate = nop_terminate;
    let nop_compressor := { nop_compressor with
      compressor := { nop_compressor.compressor with terminate := some Callback.nop_terminate } }
    -- nop_compressor->wt_api = connection->get_extension_api(connection);
    let nop_compressor := { nop_compressor with wt_api := some (host.get_extension_api connection) }
    -- return (connection->add_compressor(connection, "nop", (WT_COMPRESSOR *)nop_compressor, NULL));
    let call : AddCompressorCall :=
      { connection := connection, name := "nop", compressor := p,
        contents := nop_compressor, config := none }
    { ret := host.add_compressor call, calls := [call], handle := some (p, nop_compressor) }

/-! ## The behaviour of `memcpy` and of the branches of the callbacks -/

/-- Contents of the destination after bytes `i .. i+k-1` were copied from `src`. -/
theorem memcpy_loop_ok (src : List Byte) (k : Nat) :
    ∀ (dst : List Byte) (i : Nat), i + k ≤ src.length → i + k ≤ dst.length →
      memcpy_loop dst src i k
        = .ok (dst.take i ++ ((src.drop i).take k ++ dst.drop (i + k))) := by
  induction k with
  | zero => intro dst i _ _; simp [memcpy_loop]
  | succ k ih =>
    intro dst i hs hd
    have hi : i < src.length := by omega
    have hi2 : i < dst.length := by omega
    rw [memcpy_loop, List.getElem?_eq_getElem hi]
    simp only [hi2, if_true]
    rw [ih (dst.set i src[i]) (i + 1) (by omega) (by simp; omega)]
    congr 1
    apply List.ext_getElem?
    intro j
    simp only [List.getElem?_append, List.length_take, List.length_set, List.getElem?_take,
      List.getElem?_drop, List.getElem?_set, List.length_drop]
    have e1 : min i dst.length = i := by omega
    have e2 : min (i + 1) dst.length = i + 1 := by omega
    have e3 : min k (src.length - (i + 1)) = k := by omega
    have e4 : min (k + 1) (src.length - i) = k + 1 := by omega
    simp only [e1, e2, e3, e4]
    by_cases h1 : j < i
    · have : j < i + 1 := by omega
      have : i ≠ j := by omega
      simp [*]
    · by_cases h2 : j = i
      · subst h2
        simp [List.getElem?_eq_getElem hi, hi2]
      · have h3 : ¬ j < i + 1 := by omega
        have h4 : i ≠ j := by omega
        simp only [h1, h3, h4, if_false]
        by_cases h5 : j - (i + 1) < k
        · have h6 : j - i < k + 1 := by omega
          have h7 : i + 1 + (j - (i + 1)) = i + (j - i) := by omega
          simp [h5, h6, h7]
        · have h6 : ¬ j - i < k + 1 := by omega
          have h7 : i + 1 + k + (j - (i + 1) - k) = i + (k + 1) + (j - i - (k + 1)) := by omega
          simp only [h5, h6, h7, if_false]
          have h8 : i ≠ i + (k + 1) + (j - i - (k + 1)) := by omega
          simp [h8]

/-- The first access outside a memory object stops the copy: the read of
`src[i]` is checked before the write of `dst[i]`. -/
theorem memcpy_loop_fault (src : List Byte) (k : Nat) :
    ∀ (dst : List Byte) (i : Nat), i ≤ src.length → i ≤ dst.length →
      ¬ (i + k ≤ src.length ∧ i + k ≤ dst.length) →
      memcpy_loop dst src i k
        = .error (if src.length ≤ dst.length then Fault.read_out_of_bounds src.length
                  else Fault.write_out_of_bounds dst.length) := by
  induction k with
  | zero => intro dst i hs hd h; exact absurd ⟨hs, hd⟩ h
  | succ k ih =>
    intro dst i hs hd h
    rw [memcpy_loop]
    by_cases hi : i < src.length
    · rw [List.getElem?_eq_getElem hi]
      by_cases hi2 : i < dst.length
      · simp only [hi2, if_true]
        rw [ih (dst.set i src[i]) (i + 1) (by omega) (by simp; omega) (by simp; omega)]
        simp
      · have e : dst.length = i := by omega
        have e2 : ¬ src.length ≤ dst.length := by omega
        simp only [if_neg hi2, if_neg e2]
        rw [e]
    · have e : src.length = i := by omega
      have e2 : src.length ≤ dst.length := by omega
      rw [List.getElem?_eq_none (by omega)]
      simp only [if_pos e2]
      rw [e]

/-- In bounds, `memcpy(dst, src, n)` replaces the first `n` bytes of the
destination by the first `n` bytes of the source and leaves the rest. -/
theorem memcpy_ok (dst src : List Byte) (n : Nat)
    (hs : n ≤ src.length) (hd : n ≤ dst.length) :
    memcpy dst src n = .ok (src.take n ++ dst.drop n) := by
  unfold memcpy
  rw [memcpy_loop_ok src n dst 0 (by omega) (by omega)]
  simp

/-- Out of bounds, `memcpy(dst, src, n)` faults at the end of the shorter object. -/
theorem memcpy_fault (dst src : List Byte) (n : Nat)
    (h : ¬ (n ≤ src.length ∧ n ≤ dst.length)) :
    memcpy dst src n
      = .error (if src.length ≤ dst.length then Fault.read_out_of_bounds src.length
                else Fault.write_out_of_bounds dst.length) := by
  unfold memcpy
  exact memcpy_loop_fault src n dst 0 (by omega) (by omega) (by simpa using h)

/-- A `memcpy` that returns was in bounds. -/
theorem memcpy_ok_inv (dst src d : List Byte) (n : Nat) (h : memcpy dst src n = .ok d) :
    n ≤ src.length ∧ n ≤ dst.length ∧ d = src.take n ++ dst.drop n := by
  by_cases hb : n ≤ src.length ∧ n ≤ dst.length
  · rw [memcpy_ok dst src n hb.1 hb.2] at h
    exact ⟨hb.1, hb.2, (Except.ok.inj h).symm⟩
  · rw [memcpy_fault dst src n hb] at h
    cases h

/-- The branch of `nop_compress` taken when the destination is too small. -/
theorem nop_compress_too_small (c s : Ptr) (src_len dst_len : Nat) (st : State)
    (h : dst_len < src_len) :
    nop_compress c s src_len dst_len st = .ok (0, { st with compression_failed := 1 }) := by
  simp [nop_compress, h]

/-- The copy branch of `nop_compress`, on buffers that hold the stated lengths. -/
theorem nop_compress_copy (c s : Ptr) (src_len dst_len : Nat) (st : State)
    (h : src_len ≤ dst_len) (hs : src_len ≤ st.src.length) (hd : dst_len ≤ st.dst.length) :
    nop_compress c s src_len dst_len st
      = .ok (0, { st with dst := st.src.take src_len ++ st.dst.drop src_len,
                          result_len := src_len, compression_failed := 0 }) := by
  have h1 : ¬ dst_len < src_len := by omega
  simp [nop_compress, h1, memcpy_ok st.dst st.src src_len hs (by omega)]

/-- The function `nop_decompress` on buffers that both hold `dst_len` bytes. -/
theorem nop_decompress_copy (c s : Ptr) (src_len dst_len : Nat) (st : State)
    (hs : dst_len ≤ st.src.length) (hd : dst_len ≤ st.dst.length) :
    nop_decompress c s src_len dst_len st
      = .ok (0, { st with dst := st.src.take dst_len ++ st.dst.drop dst_len,
                          result_len := dst_len }) := by
  simp [nop_decompress, memcpy_ok st.dst st.src dst_len hs hd]

/-- A call of `nop_decompress` that returns has copied `dst_len` bytes in
bounds and returned 0. -/
theorem nop_decompress_ok_inv (c s : Ptr) (src_len dst_len : Nat) (st st1 : State) (r : Int)
    (h : nop_decompress c s src_len dst_len st = .ok (r, st1)) :
    r = 0 ∧ dst_len ≤ st.src.length ∧ dst_len ≤ st.dst.length ∧
      st1 = { st with dst := st.src.take dst_len ++ st.dst.drop dst_len,
                      result_len := dst_len } := by
  by_cases hb : dst_len ≤ st.src.length ∧ dst_len ≤ st.dst.length
  · rw [nop_decompress_copy c s src_len dst_len st hb.1 hb.2] at h
    have e := Except.ok.inj h
    exact ⟨(congrArg Prod.fst e).symm, hb.1, hb.2, (congrArg Prod.snd e).symm⟩
  · simp [nop_decompress, memcpy_fault st.dst st.src dst_len hb] at h

/-- The first `n` bytes of a destination whose first `n` bytes were overwritten. -/
theorem take_copied (src dst : List Byte) (n : Nat) (hs : n ≤ src.length) :
    (src.take n ++ dst.drop n).take n = src.take n := by
  simp [List.take_append_eq_append_take, List.length_take, Nat.min_eq_left hs]

/-- The bytes after the first `n` of a destination whose first `n` bytes were overwritten. -/
theorem getElem?_copied (src dst : List Byte) (n i : Nat) (hs : n ≤ src.length) (hi : n ≤ i) :
    (src.take n ++ dst.drop n)[i]? = dst[i]? := by
  have hl : (src.take n).length = n := by simp [hs]
  rw [List.getElem?_append_right (by omega), hl, List.getElem?_drop]
  congr 1; omega

/-- Overwriting the first `n` bytes keeps the length of the destination. -/
theorem length_copied (src dst : List Byte) (n : Nat) (hs : n ≤ src.length)
    (hd : n ≤ dst.length) : (src.take n ++ dst.drop n).length = dst.length := by
  simp [Nat.min_eq_left hs]; omega

/-- A call of `nop_compress` that returns has returned 0, from one of its two
branches. -/
theorem nop_compress_ok_inv (c s : Ptr) (src_len dst_len : Nat) (st st1 : State) (r : Int)
    (h : nop_compress c s src_len dst_len st = .ok (r, st1)) :
    r = 0 ∧
      ((dst_len < src_len ∧ st1 = { st with compression_failed := 1 }) ∨
       (src_len ≤ dst_len ∧ src_len ≤ st.src.length ∧ src_len ≤ st.dst.length ∧
         st1 = { st with dst := st.src.take src_len ++ st.dst.drop src_len,
                         result_len := src_len, compression_failed := 0 })) := by
  by_cases hlt : dst_len < src_len
  · rw [nop_compress_too_small c s src_len dst_len st hlt] at h
    have e := Except.ok.inj h
    exact ⟨(congrArg Prod.fst e).symm, Or.inl ⟨hlt, (congrArg Prod.snd e).symm⟩⟩
  · have hle : src_len ≤ dst_len := by omega
    by_cases hb : src_len ≤ st.src.length ∧ src_len ≤ st.dst.length
    · have hcopy : nop_compress c s src_len dst_len st
          = .ok (0, { st with dst := st.src.take src_len ++ st.dst.drop src_len,
                              result_len := src_len, compression_failed := 0 }) := by
        simp [nop_compress, hlt, memcpy_ok st.dst st.src src_len hb.1 hb.2]
      rw [hcopy] at h
      have e := Except.ok.inj h
      exact ⟨(congrArg Prod.fst e).symm, Or.inr ⟨hle, hb.1, hb.2, (congrArg Prod.snd e).symm⟩⟩
    · simp [nop_compress, hlt, memcpy_fault st.dst st.src src_len hb] at h

/-! ## The claims of the codec contract -/

/-- Claim C1 (round trip).  For every byte sequence `b`, the empty one included,
and every destination capacity `dst_len` with `len(b) ≤ dst_len`, `nop_compress`
returns 0 with `compression_failed = 0` and `result_len = len(b)`; and
`nop_decompress` applied to the `result_len` bytes that were written, with
`destination_len = len(b)`, returns 0 and leaves a destination equal to `b`. -/
theorem round_trip (c s c2 s2 : Ptr) (b dst dst2 : List Byte) (dst_len r0 r1 : Nat)
    (cf0 cf1 : Int) (hcap : b.length ≤ dst_len) (hdst : dst_len ≤ dst.length)
    (hdst2 : dst2.length = b.length) :
    ∃ st1 : State,
      nop_compress c s b.length dst_len ⟨b, dst, r0, cf0⟩ = .ok (0, st1) ∧
      st1.compression_failed = 0 ∧ st1.result_len = b.length ∧
      ∃ st2 : State,
        nop_decompress c2 s2 st1.result_len b.length
            ⟨st1.dst.take st1.result_len, dst2, r1, cf1⟩ = .ok (0, st2) ∧
        st2.result_len = b.length ∧ st2.dst = b := by
  refine ⟨_, nop_compress_copy c s b.length dst_len ⟨b, dst, r0, cf0⟩ hcap (le_refl _) hdst,
    rfl, rfl, ?_⟩
  have hlen : b.length ≤ dst.length := le_trans hcap hdst
  have htake : (List.take b.length (List.take b.length b ++ List.drop b.length dst)) = b := by
    simp
  refine ⟨_, nop_decompress_copy c2 s2 _ b.length _ ?_ ?_, rfl, ?_⟩
  · simp [htake]
  · simp [hdst2]
  · have hdrop : dst2.drop b.length = [] := List.drop_of_length_le (le_of_eq hdst2)
    simp [hdrop]

/-- Witness of C1: the five bytes of "hello" through a six-byte destination. -/
theorem round_trip_witness :
    hello.length ≤ 6 ∧
    ∃ st1 : State,
      nop_compress 1 2 hello.length 6 ⟨hello, [0, 0, 0, 0, 0, 0], 7, 9⟩ = .ok (0, st1) ∧
      st1.compression_failed = 0 ∧ st1.result_len = hello.length ∧
      ∃ st2 : State,
        nop_decompress 3 4 st1.result_len hello.length
            ⟨st1.dst.take st1.result_len, [1, 1, 1, 1, 1], 8, 9⟩ = .ok (0, st2) ∧
        st2.result_len = hello.length ∧ st2.dst = hello :=
  ⟨by decide, round_trip 1 2 3 4 hello [0, 0, 0, 0, 0, 0] [1, 1, 1, 1, 1] 6 7 8 9 9
    (by decide) (by decide) (by decide)⟩

/-- Claim C2 (compress matches its reference definition).  For every source
holding `src_len` bytes, every destination capacity `dst_len` and every initial
value of the out-parameters, `nop_compress` returns 0 and agrees with
`compress_reference`; `compression_failed = 1` exactly when `dst_len < src_len`;
and when `src_len ≤ dst_len`, `compression_failed = 0`, `result_len = src_len`
and the first `src_len` bytes of the destination are those of the source. -/
theorem nop_compress_matches_reference (c s : Ptr) (src_len dst_len : Nat) (st : State)
    (hs : src_len ≤ st.src.length) (hd : dst_len ≤ st.dst.length) :
    ∃ st1 : State,
      nop_compress c s src_len dst_len st = .ok (0, st1) ∧
      compress_reference src_len dst_len st = (0, st1) ∧
      (st1.compression_failed = 1 ↔ dst_len < src_len) ∧
      (src_len ≤ dst_len →
        st1.compression_failed = 0 ∧ st1.result_len = src_len ∧
        st1.dst.take src_len = st.src.take src_len) := by
  by_cases h : dst_len < src_len
  · refine ⟨_, nop_compress_too_small c s src_len dst_len st h, ?_, ?_, ?_⟩
    · simp [compress_reference, h]
    · simp [h]
    · intro h2; omega
  · have h2 : src_len ≤ dst_len := by omega
    refine ⟨_, nop_compress_copy c s src_len dst_len st h2 hs hd, ?_, ?_, ?_⟩
    · simp [compress_reference, h]
    · simp [h]
    · intro _
      refine ⟨rfl, rfl, ?_⟩
      simp [List.take_append_eq_append_take, List.length_take, Nat.min_eq_left hs]

/-- Witness of C2: "hello" with `dst_len = 5` is copied, with `dst_len = 3` it
is reported as `compression_failed`. -/
theorem nop_compress_matches_reference_witness :
    (5 ≤ hello.length ∧
      nop_compress 1 2 5 5 ⟨hello, [0, 0, 0, 0, 0], 7, 9⟩ = .ok (0, ⟨hello, hello, 5, 0⟩) ∧
      ∃ st1 : State,
        nop_compress 1 2 5 5 ⟨hello, [0, 0, 0, 0, 0], 7, 9⟩ = .ok (0, st1) ∧
        compress_reference 5 5 ⟨hello, [0, 0, 0, 0, 0], 7, 9⟩ = (0, st1) ∧
        (st1.compression_failed = 1 ↔ 5 < 5) ∧
        (5 ≤ 5 → st1.compression_failed = 0 ∧ st1.result_len = 5 ∧
          st1.dst.take 5 = hello.take 5)) ∧
    (nop_compress 1 2 5 3 ⟨hello, [0, 0, 0], 7, 9⟩ = .ok (0, ⟨hello, [0, 0, 0], 7, 1⟩) ∧
      ∃ st1 : State,
        nop_compress 1 2 5 3 ⟨hello, [0, 0, 0], 7, 9⟩ = .ok (0, st1) ∧
        compress_reference 5 3 ⟨hello, [0, 0, 0], 7, 9⟩ = (0, st1) ∧
        (st1.compression_failed = 1 ↔ 3 < 5) ∧
        (5 ≤ 3 → st1.compression_failed = 0 ∧ st1.result_len = 5 ∧
          st1.dst.take 5 = hello.take 5)) :=
  ⟨⟨by decide, by decide,
      nop_compress_matches_reference 1 2 5 5 ⟨hello, [0, 0, 0, 0, 0], 7, 9⟩
        (by decide) (by decide)⟩,
    ⟨by decide,
      nop_compress_matches_reference 1 2 5 3 ⟨hello, [0, 0, 0], 7, 9⟩
        (by decide) (by decide)⟩⟩

/-- Claim C3 (capacity-respecting).  For every source of `src_len` bytes and
every destination of capacity `dst_len`, whichever of `src_len > dst_len`,
`src_len = dst_len`, `src_len < dst_len` holds, `nop_compress` returns without
an out-of-bounds access, the destination keeps its length, and every
destination byte at an index `≥ src_len`, and every one at an index `≥ dst_len`,
is unchanged. -/
theorem nop_compress_respects_capacity (c s : Ptr) (src_len dst_len : Nat) (st : State)
    (hs : src_len ≤ st.src.length) (hd : dst_len ≤ st.dst.length) :
    ∃ st1 : State,
      nop_compress c s src_len dst_len st = .ok (0, st1) ∧
      st1.dst.length = st.dst.length ∧
      (∀ i : Nat, src_len ≤ i → st1.dst[i]? = st.dst[i]?) ∧
      (∀ i : Nat, dst_len ≤ i → st1.dst[i]? = st.dst[i]?) := by
  by_cases h : dst_len < src_len
  · exact ⟨_, nop_compress_too_small c s src_len dst_len st h, rfl, fun _ _ => rfl,
      fun _ _ => rfl⟩
  · have h2 : src_len ≤ dst_len := by omega
    exact ⟨_, nop_compress_copy c s src_len dst_len st h2 hs hd,
      length_copied st.src st.dst src_len hs (le_trans h2 hd),
      fun i hi => getElem?_copied st.src st.dst src_len i hs hi,
      fun i hi => getElem?_copied st.src st.dst src_len i hs (le_trans h2 hi)⟩

/-- Witness of C3: the three cases `src_len > dst_len`, `src_len = dst_len` and
`src_len < dst_len` on the source "hello". -/
theorem nop_compress_respects_capacity_witness :
    (5 ≤ hello.length ∧ 3 ≤ [(0 : Byte), 0, 0].length ∧
      ∃ st1 : State,
        nop_compress 1 2 5 3 ⟨hello, [0, 0, 0], 7, 9⟩ = .ok (0, st1) ∧
        st1.dst.length = 3 ∧
        (∀ i : Nat, 5 ≤ i → st1.dst[i]? = [0, 0, 0][i]?) ∧
        (∀ i : Nat, 3 ≤ i → st1.dst[i]? = [0, 0, 0][i]?)) ∧
    (∃ st1 : State,
        nop_compress 1 2 5 5 ⟨hello, [0, 0, 0, 0, 0], 7, 9⟩ = .ok (0, st1) ∧
        st1.dst.length = 5 ∧
        (∀ i : Nat, 5 ≤ i → st1.dst[i]? = [0, 0, 0, 0, 0][i]?) ∧
        (∀ i : Nat, 5 ≤ i → st1.dst[i]? = [0, 0, 0, 0, 0][i]?)) ∧
    (∃ st1 : State,
        nop_compress 1 2 5 7 ⟨hello, [1, 2, 3, 4, 5, 6, 7], 7, 9⟩ = .ok (0, st1) ∧
        st1.dst.length = 7 ∧
        (∀ i : Nat, 5 ≤ i → st1.dst[i]? = [1, 2, 3, 4, 5, 6, 7][i]?) ∧
        (∀ i : Nat, 7 ≤ i → st1.dst[i]? = [1, 2, 3, 4, 5, 6, 7][i]?)) :=
  ⟨⟨by decide, by decide,
      nop_compress_respects_capacity 1 2 5 3 ⟨hello, [0, 0, 0], 7, 9⟩ (by decide) (by decide)⟩,
    nop_compress_respects_capacity 1 2 5 5 ⟨hello, [0, 0, 0, 0, 0], 7, 9⟩
      (by decide) (by decide),
    nop_compress_respects_capacity 1 2 5 7 ⟨hello, [1, 2, 3, 4, 5, 6, 7], 7, 9⟩
      (by decide) (by decide)⟩

/-- Claim C4 (exact fill on decompress).  For every source with
`dst_len ≤ src_len` and every destination of capacity `dst_len`,
`nop_decompress` returns 0 with `result_len = dst_len`; the first `dst_len`
bytes of the destination are the first `dst_len` bytes of the source, no byte
beyond them is written, and a destination of exactly `dst_len` bytes is
afterwards exactly the first `dst_len` bytes of the source. -/
theorem nop_decompress_exact_fill (c s : Ptr) (src_len dst_len : Nat) (st : State)
    (h : dst_len ≤ src_len) (hs : src_len ≤ st.src.length) (hd : dst_len ≤ st.dst.length) :
    ∃ st1 : State,
      nop_decompress c s src_len dst_len st = .ok (0, st1) ∧
      st1.result_len = dst_len ∧
      st1.dst.length = st.dst.length ∧
      st1.dst.take dst_len = st.src.take dst_len ∧
      st1.dst.drop dst_len = st.dst.drop dst_len ∧
      (st.dst.length = dst_len → st1.dst = st.src.take dst_len) := by
  have hs2 : dst_len ≤ st.src.length := le_trans h hs
  have hl : (st.src.take dst_len).length = dst_len := by simp [hs2]
  refine ⟨_, nop_decompress_copy c s src_len dst_len st hs2 hd, rfl,
    length_copied st.src st.dst dst_len hs2 hd, take_copied st.src st.dst dst_len hs2, ?_, ?_⟩
  · show (st.src.take dst_len ++ st.dst.drop dst_len).drop dst_len = st.dst.drop dst_len
    rw [List.drop_append_eq_append_drop, hl]
    simp [List.drop_eq_nil_of_le (le_of_eq hl)]
  · intro he
    show st.src.take dst_len ++ st.dst.drop dst_len = st.src.take dst_len
    rw [List.drop_eq_nil_of_le (le_of_eq he), List.append_nil]

/-- Witness of C4: source "hello" with `dst_len = 5` gives `result_len = 5`
and the destination "hello". -/
theorem nop_decompress_exact_fill_witness :
    nop_decompress 1 2 5 5 ⟨hello, [0, 0, 0, 0, 0], 7, 9⟩ = .ok (0, ⟨hello, hello, 5, 9⟩) ∧
    5 ≤ hello.length ∧
    ∃ st1 : State,
      nop_decompress 1 2 5 5 ⟨hello, [0, 0, 0, 0, 0], 7, 9⟩ = .ok (0, st1) ∧
      st1.result_len = 5 ∧
      st1.dst.length = 5 ∧
      st1.dst.take 5 = hello.take 5 ∧
      st1.dst.drop 5 = [] ∧
      (5 = 5 → st1.dst = hello.take 5) :=
  ⟨by decide, by decide,
    nop_decompress_exact_fill 1 2 5 5 ⟨hello, [0, 0, 0, 0, 0], 7, 9⟩
      (by decide) (by decide) (by decide)⟩

/-- Claim C5 (identity capacity).  For every source buffer `b`, `nop_pre_size`
returns 0 and sets `result_len` to exactly `len(b)`, touching nothing else; the
estimate does not depend on the bytes of `b`: every source of the same length
gets the same estimate. -/
theorem nop_pre_size_identity (c s : Ptr) (b dst : List Byte) (r0 : Nat) (cf0 : Int) :
    nop_pre_size c s b.length ⟨b, dst, r0, cf0⟩ = .ok (0, ⟨b, dst, b.length, cf0⟩) ∧
    ∀ b2 : List Byte, b2.length = b.length →
      ∃ st2 : State,
        nop_pre_size c s b2.length ⟨b2, dst, r0, cf0⟩ = .ok (0, st2) ∧
        st2.result_len = b.length := by
  refine ⟨rfl, ?_⟩
  intro b2 h2
  exact ⟨_, rfl, h2⟩

/-- Witness of C5: the estimate for "hello" is 5, as for any other five bytes. -/
theorem nop_pre_size_identity_witness :
    nop_pre_size 1 2 5 ⟨hello, [], 7, 9⟩ = .ok (0, ⟨hello, [], 5, 9⟩) ∧
    ∃ st2 : State,
      nop_pre_size 1 2 5 ⟨[1, 2, 3, 4, 5], [], 7, 9⟩ = .ok (0, st2) ∧ st2.result_len = 5 :=
  ⟨(nop_pre_size_identity 1 2 hello [] 7 9).1,
    (nop_pre_size_identity 1 2 hello [] 7 9).2 [1, 2, 3, 4, 5] (by decide)⟩

/-- Claim C6 (sizing protocol).  For every source `b`, `nop_pre_size` reports
an estimate `est` such that `nop_compress` on `b` with any destination capacity
`dst_len ≥ est` returns 0 with `compression_failed = 0`, and `est` is the least
such capacity: any `dst_len < est` gives `compression_failed = 1`. -/
theorem pre_size_is_least_sufficient_capacity (c s c2 s2 : Ptr) (b dst0 : List Byte)
    (r0 : Nat) (cf0 : Int) :
    ∃ st0 : State,
      nop_pre_size c s b.length ⟨b, dst0, r0, cf0⟩ = .ok (0, st0) ∧
      (∀ (dst : List Byte) (dst_len r1 : Nat) (cf1 : Int),
        st0.result_len ≤ dst_len → dst_len ≤ dst.length →
        ∃ st1 : State,
          nop_compress c2 s2 b.length dst_len ⟨b, dst, r1, cf1⟩ = .ok (0, st1) ∧
          st1.compression_failed = 0) ∧
      (∀ (dst : List Byte) (dst_len r1 : Nat) (cf1 : Int),
        dst_len < st0.result_len →
        ∃ st1 : State,
          nop_compress c2 s2 b.length dst_len ⟨b, dst, r1, cf1⟩ = .ok (0, st1) ∧
          st1.compression_failed = 1) := by
  refine ⟨⟨b, dst0, b.length, cf0⟩, rfl, ?_, ?_⟩
  · intro dst dst_len r1 cf1 h1 h2
    exact ⟨_, nop_compress_copy c2 s2 b.length dst_len ⟨b, dst, r1, cf1⟩ h1 (le_refl _) h2,
      rfl⟩
  · intro dst dst_len r1 cf1 h1
    exact ⟨_, nop_compress_too_small c2 s2 b.length dst_len ⟨b, dst, r1, cf1⟩ h1, rfl⟩

/-- Claim C7 (non-expansion).  For every call of `nop_compress` that returns 0
with `compression_failed = 0`, the reported `result_len` is at most `src_len`
and at most `dst_len`. -/
theorem nop_compress_non_expansion (c s : Ptr) (src_len dst_len : Nat) (st st1 : State)
    (hcall : nop_compress c s src_len dst_len st = .ok (0, st1))
    (hcf : st1.compression_failed = 0) :
    st1.result_len ≤ src_len ∧ st1.result_len ≤ dst_len := by
  by_cases h : dst_len < src_len
  · rw [nop_compress_too_small c s src_len dst_len st h] at hcall
    have e : _ = st1 := congrArg Prod.snd (Except.ok.inj hcall)
    rw [← e] at hcf
    simp at hcf
  · have h2 : src_len ≤ dst_len := by omega
    simp only [nop_compress, h, if_false] at hcall
    cases hm : memcpy st.dst st.src src_len with
    | error f => simp [hm] at hcall
    | ok d =>
      simp only [hm] at hcall
      have e : _ = st1 := congrArg Prod.snd (Except.ok.inj hcall)
      rw [← e]
      exact ⟨le_refl _, h2⟩

/-- Witness of C7: compressing "hello" into a seven-byte destination. -/
theorem nop_compress_non_expansion_witness :
    nop_compress 1 2 5 7 ⟨hello, [0, 0, 0, 0, 0, 0, 0], 7, 9⟩
        = .ok (0, ⟨hello, [104, 101, 108, 108, 111, 0, 0], 5, 0⟩) ∧
    (5 : Nat) ≤ 5 ∧ (5 : Nat) ≤ 7 :=
  ⟨by decide,
    nop_compress_non_expansion 1 2 5 7 ⟨hello, [0, 0, 0, 0, 0, 0, 0], 7, 9⟩
      ⟨hello, [104, 101, 108, 108, 111, 0, 0], 5, 0⟩ (by decide) rfl⟩

/-- Counterexample to C8.  With `src_len = 3 < dst_len = 5`, `nop_decompress`
returns 0 with a result, having copied the source bytes at indices 3 and 4;
when the source object holds just 3 bytes the same call reads out of bounds at
index 3 and returns nothing.  So a short source never yields a non-zero return. -/
theorem nop_decompress_accepts_short_source :
    nop_decompress 1 2 3 5 ⟨hello, [0, 0, 0, 0, 0], 7, 9⟩ = .ok (0, ⟨hello, hello, 5, 9⟩) ∧
    nop_decompress 1 2 3 5 ⟨[104, 101, 108], [0, 0, 0, 0, 0], 7, 9⟩
      = .error (.read_out_of_bounds 3) ∧
    ¬ (∀ (c s : Ptr) (src_len dst_len : Nat) (st : State),
        src_len ≤ st.src.length → dst_len ≤ st.dst.length → src_len < dst_len →
        ∃ (r : Int) (st1 : State),
          nop_decompress c s src_len dst_len st = .ok (r, st1) ∧ r ≠ 0) := by
  refine ⟨by decide, by decide, ?_⟩
  intro hall
  obtain ⟨r, st1, hcall, hr⟩ :=
    hall 1 2 3 5 ⟨hello, [0, 0, 0, 0, 0], 7, 9⟩ (by decide) (by decide) (by decide)
  exact hr (nop_decompress_ok_inv 1 2 3 5 _ st1 r hcall).1

/-- Claim C8, amended.  `nop_decompress` validates nothing and has no error
return: a call that returns, returns 0.  For a destination that holds `dst_len`
bytes: if the source object holds at least `dst_len` bytes the call returns 0
with `result_len = dst_len` and the first `dst_len` source bytes in the
destination, whatever `src_len` is; if the source object holds fewer than
`dst_len` bytes the copy reads out of bounds at index `len(source)`. -/
theorem nop_decompress_no_validation (c s : Ptr) (src_len dst_len : Nat) (st : State)
    (hd : dst_len ≤ st.dst.length) :
    (∀ (r : Int) (st1 : State),
      nop_decompress c s src_len dst_len st = .ok (r, st1) → r = 0) ∧
    (dst_len ≤ st.src.length →
      nop_decompress c s src_len dst_len st
        = .ok (0, { st with dst := st.src.take dst_len ++ st.dst.drop dst_len,
                            result_len := dst_len })) ∧
    (st.src.length < dst_len →
      nop_decompress c s src_len dst_len st
        = .error (.read_out_of_bounds st.src.length)) := by
  refine ⟨?_, ?_, ?_⟩
  · intro r st1 h
    exact (nop_decompress_ok_inv c s src_len dst_len st st1 r h).1
  · intro hs
    exact nop_decompress_copy c s src_len dst_len st hs hd
  · intro hs
    have hb : ¬ (dst_len ≤ st.src.length ∧ dst_len ≤ st.dst.length) := by omega
    have hle : st.src.length ≤ st.dst.length := by omega
    simp [nop_decompress, memcpy_fault st.dst st.src dst_len hb, hle]

/-- Witness of the amended C8: a source of three valid bytes inside a larger
object, decompressed into five bytes. -/
theorem nop_decompress_no_validation_witness :
    5 ≤ [(0 : Byte), 0, 0, 0, 0].length ∧
    (∀ (r : Int) (st1 : State),
      nop_decompress 1 2 3 5 ⟨hello, [0, 0, 0, 0, 0], 7, 9⟩ = .ok (r, st1) → r = 0) ∧
    (5 ≤ hello.length →
      nop_decompress 1 2 3 5 ⟨hello, [0, 0, 0, 0, 0], 7, 9⟩
        = .ok (0, ⟨hello, hello.take 5 ++ [], 5, 9⟩)) ∧
    (hello.length < 5 →
      nop_decompress 1 2 3 5 ⟨hello, [0, 0, 0, 0, 0], 7, 9⟩
        = .error (.read_out_of_bounds hello.length)) :=
  ⟨by decide, nop_decompress_no_validation 1 2 3 5 ⟨hello, [0, 0, 0, 0, 0], 7, 9⟩ (by decide)⟩

/-- Counterexample to C9.  With the source "hello" (`src_len = 5`) and a
destination of only 3 bytes, `nop_decompress` returns 0, not an error. -/
theorem nop_decompress_accepts_small_destination :
    nop_decompress 1 2 5 3 ⟨hello, [0, 0, 0], 7, 9⟩
      = .ok (0, ⟨hello, [104, 101, 108], 3, 9⟩) ∧
    ¬ (∀ (c s : Ptr) (src_len dst_len : Nat) (st : State),
        st.src.length = src_len → st.dst.length = dst_len → dst_len < src_len →
        ∃ (r : Int) (st1 : State),
          nop_decompress c s src_len dst_len st = .ok (r, st1) ∧ r ≠ 0) := by
  refine ⟨by decide, ?_⟩
  intro hall
  obtain ⟨r, st1, hcall, hr⟩ :=
    hall 1 2 5 3 ⟨hello, [0, 0, 0], 7, 9⟩ (by decide) (by decide) (by decide)
  exact hr (nop_decompress_ok_inv 1 2 5 3 _ st1 r hcall).1

/-- Claim C9, amended.  When the destination is smaller than the source
(`dst_len < src_len`), `nop_decompress` reports no error: it returns 0 with
`result_len = dst_len`, having copied the first `dst_len` source bytes; the
destination keeps its length and no byte at an index `≥ dst_len` is written. -/
theorem nop_decompress_small_destination (c s : Ptr) (src_len dst_len : Nat) (st : State)
    (h : dst_len < src_len) (hs : src_len ≤ st.src.length) (hd : dst_len ≤ st.dst.length) :
    ∃ st1 : State,
      nop_decompress c s src_len dst_len st = .ok (0, st1) ∧
      st1.result_len = dst_len ∧
      st1.dst.length = st.dst.length ∧
      st1.dst.take dst_len = st.src.take dst_len ∧
      ∀ i : Nat, dst_len ≤ i → st1.dst[i]? = st.dst[i]? := by
  have hs2 : dst_len ≤ st.src.length := by omega
  exact ⟨_, nop_decompress_copy c s src_len dst_len st hs2 hd, rfl,
    length_copied st.src st.dst dst_len hs2 hd, take_copied st.src st.dst dst_len hs2,
    fun i hi => getElem?_copied st.src st.dst dst_len i hs2 hi⟩

/-- Witness of the amended C9: "hello" decompressed into a destination of
capacity 3 inside a four-byte object. -/
theorem nop_decompress_small_destination_witness :
    (3 : Nat) < 5 ∧ 5 ≤ hello.length ∧
    ∃ st1 : State,
      nop_decompress 1 2 5 3 ⟨hello, [0, 0, 0, 77], 7, 9⟩ = .ok (0, st1) ∧
      st1.result_len = 3 ∧
      st1.dst.length = 4 ∧
      st1.dst.take 3 = hello.take 3 ∧
      ∀ i : Nat, 3 ≤ i → st1.dst[i]? = [(0 : Byte), 0, 0, 77][i]? :=
  ⟨by decide, by decide,
    nop_decompress_small_destination 1 2 5 3 ⟨hello, [0, 0, 0, 77], 7, 9⟩
      (by decide) (by decide) (by decide)⟩

/-- Claim C11 (the source buffer is read-only).  With source and destination as
distinct buffers of the explicit state, every call of `nop_compress`,
`nop_decompress` and `nop_pre_size` that returns leaves the source buffer
byte for byte as it was; and on buffers that hold the stated lengths each of
the three does return. -/
theorem source_is_read_only (c s : Ptr) (src_len dst_len : Nat) (st : State) :
    (∀ (r : Int) (st1 : State),
      nop_compress c s src_len dst_len st = .ok (r, st1) → st1.src = st.src) ∧
    (∀ (r : Int) (st1 : State),
      nop_decompress c s src_len dst_len st = .ok (r, st1) → st1.src = st.src) ∧
    (∀ (r : Int) (st1 : State),
      nop_pre_size c s src_len st = .ok (r, st1) → st1.src = st.src) ∧
    (src_len ≤ st.src.length → dst_len ≤ st.dst.length →
      ∃ st1 : State, nop_compress c s src_len dst_len st = .ok (0, st1) ∧ st1.src = st.src) ∧
    (dst_len ≤ st.src.length → dst_len ≤ st.dst.length →
      ∃ st1 : State, nop_decompress c s src_len dst_len st = .ok (0, st1) ∧ st1.src = st.src) ∧
    (∃ st1 : State, nop_pre_size c s src_len st = .ok (0, st1) ∧ st1.src = st.src) := by
  refine ⟨?_, ?_, ?_, ?_, ?_, ⟨_, rfl, rfl⟩⟩
  · intro r st1 h
    rcases (nop_compress_ok_inv c s src_len dst_len st st1 r h).2 with ⟨_, e⟩ | ⟨_, _, _, e⟩
    · rw [e]
    · rw [e]
  · intro r st1 h
    rw [(nop_decompress_ok_inv c s src_len dst_len st st1 r h).2.2.2]
  · intro r st1 h
    have e : _ = st1 := congrArg Prod.snd (Except.ok.inj h)
    rw [← e]
  · intro hs hd
    by_cases hlt : dst_len < src_len
    · exact ⟨_, nop_compress_too_small c s src_len dst_len st hlt, rfl⟩
    · exact ⟨_, nop_compress_copy c s src_len dst_len st (by omega) hs hd, rfl⟩
  · intro hs hd
    exact ⟨_, nop_decompress_copy c s src_len dst_len st hs hd, rfl⟩

/-- Witness of C11: the source "hello" after each of the three callbacks. -/
theorem source_is_read_only_witness :
    nop_compress 1 2 5 5 ⟨hello, [0, 0, 0, 0, 0], 7, 9⟩ = .ok (0, ⟨hello, hello, 5, 0⟩) ∧
    (⟨hello, hello, 5, 0⟩ : State).src = hello ∧
    nop_decompress 1 2 5 3 ⟨hello, [0, 0, 0], 7, 9⟩
      = .ok (0, ⟨hello, [104, 101, 108], 3, 9⟩) ∧
    (⟨hello, [104, 101, 108], 3, 9⟩ : State).src = hello ∧
    nop_pre_size 1 2 5 ⟨hello, [], 7, 9⟩ = .ok (0, ⟨hello, [], 5, 9⟩) ∧
    (⟨hello, [], 5, 9⟩ : State).src = hello :=
  ⟨by decide,
    (source_is_read_only 1 2 5 5 ⟨hello, [0, 0, 0, 0, 0], 7, 9⟩).1 0 _ (by decide),
    by decide,
    (source_is_read_only 1 2 5 3 ⟨hello, [0, 0, 0], 7, 9⟩).2.1 0 _ (by decide),
    by decide,
    (source_is_read_only 1 2 5 0 ⟨hello, [], 7, 9⟩).2.2.1 0 _ (by decide)⟩

/-- Claim C12 (registration resource failure).  When the allocation of the
codec handle fails inside `wiredtiger_extension_init`, the function returns a
non-zero error code, the `ENOMEM` that `calloc` left in `errno`, and
`add_compressor` is never called: no codec is registered and no handle exists. -/
theorem extension_init_allocation_failure (host : Host) (connection config : Ptr)
    (hfail : host.calloc_block = none) (hpos : 0 < host.ENOMEM) :
    (wiredtiger_extension_init host connection config).ret ≠ 0 ∧
    (wiredtiger_extension_init host connection config).ret = host.ENOMEM ∧
    (wiredtiger_extension_init host connection config).calls = [] ∧
    (wiredtiger_extension_init host connection config).handle = none := by
  have hc : calloc host = (none, host.ENOMEM) := by simp [calloc, hfail]
  have hr : wiredtiger_extension_init host connection config
      = { ret := host.ENOMEM, calls := [], handle := none } := by
    simp [wiredtiger_extension_init, hc]
  rw [hr]
  exact ⟨by simpa using (ne_of_gt hpos), rfl, rfl, rfl⟩

/-- Witness of C12: a host without memory, where `ENOMEM` is 12 and
`add_compressor` would have returned 0. -/
theorem extension_init_allocation_failure_witness :
    (wiredtiger_extension_init
      { ENOMEM := 12, errno := 0, calloc_block := none,
        get_extension_api := fun _ => 77, add_compressor := fun _ => 0 } 40 41).ret ≠ 0 ∧
    (wiredtiger_extension_init
      { ENOMEM := 12, errno := 0, calloc_block := none,
        get_extension_api := fun _ => 77, add_compressor := fun _ => 0 } 40 41).ret = 12 ∧
    (wiredtiger_extension_init
      { ENOMEM := 12, errno := 0, calloc_block := none,
        get_extension_api := fun _ => 77, add_compressor := fun _ => 0 } 40 41).calls = [] ∧
    (wiredtiger_extension_init
      { ENOMEM := 12, errno := 0, calloc_block := none,
        get_extension_api := fun _ => 77, add_compressor := fun _ => 0 } 40 41).handle = none :=
  extension_init_allocation_failure
    { ENOMEM := 12, errno := 0, calloc_block := none,
      get_extension_api := fun _ => 77, add_compressor := fun _ => 0 } 40 41 rfl (by decide)

/-- Claim C13 (registration success path).  When the allocation succeeds,
`wiredtiger_extension_init` calls `add_compressor` exactly once, on the
connection it was given, with the name "nop", a null configuration and the
allocated structure, whose `compress`, `decompress`, `pre_size` and `terminate`
are `nop_compress`, `nop_decompress`, `nop_pre_size` and `nop_terminate`, whose
`compress_raw` is null and whose `wt_api` is the extension API of the host; it
returns exactly the code `add_compressor` returned. -/
theorem extension_init_registers_nop (host : Host) (connection config p : Ptr)
    (hok : host.calloc_block = some p) :
    ∃ call : AddCompressorCall,
      (wiredtiger_extension_init host connection config).calls = [call] ∧
      call.connection = connection ∧ call.name = "nop" ∧ call.compressor = p ∧
      call.config = none ∧
      call.contents.compressor.compress = some Callback.nop_compress ∧
      call.contents.compressor.compress_raw = none ∧
      call.contents.compressor.decompress = some Callback.nop_decompress ∧
      call.contents.compressor.pre_size = some Callback.nop_pre_size ∧
      call.contents.compressor.terminate = some Callback.nop_terminate ∧
      call.contents.wt_api = some (host.get_extension_api connection) ∧
      (wiredtiger_extension_init host connection config).handle = some (p, call.contents) ∧
      (wiredtiger_extension_init host connection config).ret = host.add_compressor call := by
  have hc : calloc host = (some p, host.errno) := by simp [calloc, hok]
  refine ⟨{ connection := connection, name := "nop", compressor := p,
            contents := { compressor := { compress := some Callback.nop_compress,
                                          compress_raw := none,
                                          decompress := some Callback.nop_decompress,
                                          pre_size := some Callback.nop_pre_size,
                                          terminate := some Callback.nop_terminate },
                          wt_api := some (host.get_extension_api connection) },
            config := none }, ?_, rfl, rfl, rfl, rfl, rfl, rfl, rfl, rfl, rfl, rfl, ?_, ?_⟩
  all_goals simp [wiredtiger_extension_init, hc, zeroed]

/-- Witness of C13: a host whose `calloc` hands out the block at address 1000
and whose `add_compressor` answers 5 to a compressor named "nop". -/
theorem extension_init_registers_nop_witness :
    (wiredtiger_extension_init
      { ENOMEM := 12, errno := 0, calloc_block := some 1000,
        get_extension_api := fun conn => conn + 1,
        add_compressor := fun call => if call.name = "nop" then 5 else 0 } 40 41)
      = { ret := 5,
          calls := [{ connection := 40, name := "nop", compressor := 1000,
                      contents := { compressor := { compress := some Callback.nop_compress,
                                                    compress_raw := none,
                                                    decompress := some Callback.nop_decompress,
                                                    pre_size := some Callback.nop_pre_size,
                                                    terminate := some Callback.nop_terminate },
                                    wt_api := some 41 },
                      config := none }],
          handle := some (1000, { compressor := { compress := some Callback.nop_compress,
                                                  compress_raw := none,
                                                  decompress := some Callback.nop_decompress,
                                                  pre_size := some Callback.nop_pre_size,
                                                  terminate := some Callback.nop_terminate },
                                  wt_api := some 41 }) } ∧
    ∃ call : AddCompressorCall,
      (wiredtiger_extension_init
        { ENOMEM := 12, errno := 0, calloc_block := some 1000,
          get_extension_api := fun conn => conn + 1,
          add_compressor := fun call => if call.name = "nop" then 5 else 0 } 40 41).calls
        = [call] ∧
      call.connection = 40 ∧ call.name = "nop" ∧ call.compressor = 1000 ∧
      call.config = none ∧
      call.contents.compressor.compress = some Callback.nop_compress ∧
      call.contents.compressor.compress_raw = none ∧
      call.contents.compressor.decompress = some Callback.nop_decompress ∧
      call.contents.compressor.pre_size = some Callback.nop_pre_size ∧
      call.contents.compressor.terminate = some Callback.nop_terminate ∧
      call.contents.wt_api = some (40 + 1) ∧
      (wiredtiger_extension_init
        { ENOMEM := 12, errno := 0, calloc_block := some 1000,
          get_extension_api := fun conn => conn + 1,
          add_compressor := fun call => if call.name = "nop" then 5 else 0 } 40 41).handle
        = some (1000, call.contents) ∧
      (wiredtiger_extension_init
        { ENOMEM := 12, errno := 0, calloc_block := some 1000,
          get_extension_api := fun conn => conn + 1,
          add_compressor := fun call => if call.name = "nop" then 5 else 0 } 40 41).ret
        = (if call.name = "nop" then 5 else 0) :=
  ⟨by decide,
    extension_init_registers_nop
      { ENOMEM := 12, errno := 0, calloc_block := some 1000,
        get_extension_api := fun conn => conn + 1,
        add_compressor := fun call => if call.name = "nop" then 5 else 0 } 40 41 1000 rfl⟩

/-- Claim C14 (the four callbacks always signal success).  Whenever
`nop_compress`, `nop_decompress`, `nop_pre_size` or `nop_terminate` returns, it
returns 0; and each does return 0 where it is defined: `nop_compress` in its
`compression_failed` branch and in its copy branch, `nop_decompress` on buffers
of `dst_len` bytes, `nop_pre_size` always, `nop_terminate` on a live handle. -/
theorem callbacks_return_zero (c s : Ptr) (src_len dst_len : Nat) (st : State)
    (heap : List Ptr) :
    (∀ (r : Int) (st1 : State), nop_compress c s src_len dst_len st = .ok (r, st1) → r = 0) ∧
    (∀ (r : Int) (st1 : State), nop_decompress c s src_len dst_len st = .ok (r, st1) → r = 0) ∧
    (∀ (r : Int) (st1 : State), nop_pre_size c s src_len st = .ok (r, st1) → r = 0) ∧
    (∀ (r : Int) (heap1 : List Ptr), nop_terminate c s heap = some (r, heap1) → r = 0) ∧
    (dst_len < src_len →
      ∃ st1 : State, nop_compress c s src_len dst_len st = .ok (0, st1) ∧
        st1.compression_failed = 1) ∧
    (src_len ≤ dst_len → src_len ≤ st.src.length → dst_len ≤ st.dst.length →
      ∃ st1 : State, nop_compress c s src_len dst_len st = .ok (0, st1) ∧
        st1.compression_failed = 0) ∧
    (dst_len ≤ st.src.length → dst_len ≤ st.dst.length →
      ∃ st1 : State, nop_decompress c s src_len dst_len st = .ok (0, st1)) ∧
    (∃ st1 : State, nop_pre_size c s src_len st = .ok (0, st1)) ∧
    (c ∈ heap → nop_terminate c s heap = some (0, heap.erase c)) := by
  refine ⟨?_, ?_, ?_, ?_, ?_, ?_, ?_, ⟨_, rfl⟩, ?_⟩
  · intro r st1 h
    exact (nop_compress_ok_inv c s src_len dst_len st st1 r h).1
  · intro r st1 h
    exact (nop_decompress_ok_inv c s src_len dst_len st st1 r h).1
  · intro r st1 h
    exact (congrArg Prod.fst (Except.ok.inj h)).symm
  · intro r heap1 h
    by_cases hm : c ∈ heap
    · simp [nop_terminate, free, hm] at h
      exact h.1.symm
    · simp [nop_terminate, free, hm] at h
  · intro hlt
    exact ⟨_, nop_compress_too_small c s src_len dst_len st hlt, rfl⟩
  · intro hle hs hd
    exact ⟨_, nop_compress_copy c s src_len dst_len st hle hs hd, rfl⟩
  · intro hs hd
    exact ⟨_, nop_decompress_copy c s src_len dst_len st hs hd⟩
  · intro hm
    simp [nop_terminate, free, hm]

/-- Witness of C14: the return codes of the four callbacks on "hello" and on
the live handle 1000. -/
theorem callbacks_return_zero_witness :
    nop_compress 1000 2 5 3 ⟨hello, [0, 0, 0], 7, 9⟩ = .ok (0, ⟨hello, [0, 0, 0], 7, 1⟩) ∧
    nop_compress 1000 2 5 5 ⟨hello, [0, 0, 0, 0, 0], 7, 9⟩ = .ok (0, ⟨hello, hello, 5, 0⟩) ∧
    nop_terminate 1000 2 [1000] = some (0, [1000].erase 1000) :=
  ⟨by decide, by decide,
    (callbacks_return_zero 1000 2 5 5 ⟨hello, [0, 0, 0, 0, 0], 7, 9⟩ [1000]).2.2.2.2.2.2.2.2
      (by decide)⟩

/-- Counterexample to C15.  Two calls of `nop_compress` on the same buffers and
lengths ("hello", `dst_len = 3`), with `*result_lenp` holding 7 before the one
and 8 before the other, end with `result_len` 7 and 8: in the
`compression_failed` branch `result_len` is not a function of the buffers and
lengths only. -/
theorem compress_result_len_depends_on_prior_cell :
    outputs (nop_compress 1 2 5 3 ⟨hello, [0, 0, 0], 7, 9⟩) = .ok (0, 7, 1, [0, 0, 0]) ∧
    outputs (nop_compress 1 2 5 3 ⟨hello, [0, 0, 0], 8, 9⟩) = .ok (0, 8, 1, [0, 0, 0]) ∧
    ¬ (∀ (c s c2 s2 : Ptr) (src_len dst_len : Nat) (st st2 : State),
        st2.src = st.src → st2.dst = st.dst →
        outputs (nop_compress c s src_len dst_len st)
          = outputs (nop_compress c2 s2 src_len dst_len st2)) := by
  refine ⟨by decide, by decide, ?_⟩
  intro hall
  have h := hall 1 2 1 2 5 3 ⟨hello, [0, 0, 0], 7, 9⟩ ⟨hello, [0, 0, 0], 8, 9⟩ rfl rfl
  revert h
  decide

/-- Claim C15, amended.  The results of `nop_compress`, `nop_decompress` and
`nop_pre_size` are the same for any two compressor handles and sessions.  The
return code, `compression_failed` and the destination after `nop_compress`, and
the return code, `result_len` and the destination after `nop_decompress` and
`nop_pre_size`, do not depend on what the out-parameters held before; the
`result_len` of `nop_compress` does not either when `src_len ≤ dst_len`, but in
the `compression_failed` branch it is not written and keeps the value it had
before the call.  The outputs of `nop_decompress` depend neither on `src_len`
nor on the source bytes at an index `≥ dst_len`. -/
theorem callbacks_are_stateless (c s c2 s2 : Ptr) (src_len src_len2 dst_len r2 : Nat)
    (cf2 : Int) (src2 : List Byte) (st : State)
    (hsrc : src2.take dst_len = st.src.take dst_len) :
    nop_compress c s src_len dst_len st = nop_compress c2 s2 src_len dst_len st ∧
    nop_decompress c s src_len dst_len st = nop_decompress c2 s2 src_len dst_len st ∧
    nop_pre_size c s src_len st = nop_pre_size c2 s2 src_len st ∧
    (src_len ≤ dst_len →
      outputs (nop_compress c s src_len dst_len st)
        = outputs (nop_compress c2 s2 src_len dst_len
            { st with result_len := r2, compression_failed := cf2 })) ∧
    (dst_len < src_len →
      outputs (nop_compress c s src_len dst_len st) = .ok (0, st.result_len, 1, st.dst) ∧
      outputs (nop_compress c2 s2 src_len dst_len
          { st with result_len := r2, compression_failed := cf2 })
        = .ok (0, r2, 1, st.dst)) ∧
    outputs (nop_decompress c s src_len dst_len st)
      = outputs (nop_decompress c2 s2 src_len dst_len { st with result_len := r2 }) ∧
    outputs (nop_pre_size c s src_len st) = .ok (0, src_len, st.compression_failed, st.dst) ∧
    outputs (nop_pre_size c2 s2 src_len { st with result_len := r2 })
      = .ok (0, src_len, st.compression_failed, st.dst) ∧
    nop_decompress c s src_len dst_len st = nop_decompress c2 s2 src_len2 dst_len st ∧
    outputs (nop_decompress c s src_len dst_len st)
      = outputs (nop_decompress c2 s2 src_len2 dst_len { st with src := src2 }) := by
  refine ⟨rfl, rfl, rfl, ?_, ?_, ?_, rfl, rfl, rfl, ?_⟩
  · intro hle
    have hlt : ¬ dst_len < src_len := by omega
    simp only [nop_compress, hlt, if_false]
  · intro hlt
    rw [nop_compress_too_small c s src_len dst_len st hlt,
      nop_compress_too_small c2 s2 src_len dst_len _ hlt]
    exact ⟨rfl, rfl⟩
  · simp only [nop_decompress]
  · by_cases hs : dst_len ≤ st.src.length
    · have hs2 : dst_len ≤ src2.length := by
        have hl := congrArg List.length hsrc
        simp only [List.length_take] at hl
        omega
      by_cases hd : dst_len ≤ st.dst.length
      · rw [nop_decompress_copy c s src_len dst_len st hs hd,
          nop_decompress_copy c2 s2 src_len2 dst_len { st with src := src2 } hs2 hd]
        simp [outputs, hsrc]
      · have hb : ¬ (dst_len ≤ st.src.length ∧ dst_len ≤ st.dst.length) := by omega
        have hb2 : ¬ (dst_len ≤ src2.length ∧ dst_len ≤ st.dst.length) := by omega
        have h1 : ¬ st.src.length ≤ st.dst.length := by omega
        have h2 : ¬ src2.length ≤ st.dst.length := by omega
        simp [nop_decompress, outputs, memcpy_fault st.dst st.src dst_len hb,
          memcpy_fault st.dst src2 dst_len hb2, h1, h2]
    · have hl := congrArg List.length hsrc
      simp only [List.length_take] at hl
      have hlen : src2.length < dst_len := by omega
      have e1 : st.src.take dst_len = st.src := List.take_of_length_le (by omega)
      have e2 : src2.take dst_len = src2 := List.take_of_length_le (by omega)
      have e : src2 = st.src := by rw [← e2, hsrc, e1]
      subst e
      rfl

/-- Witness of the amended C15: decompressing five bytes of "hello" and of
"hello" followed by other bytes, under different handles, sessions and source
lengths. -/
theorem callbacks_are_stateless_witness :
    List.take 5 (hello ++ [1, 2, 3]) = List.take 5 hello ∧
    outputs (nop_decompress 1 2 5 5 ⟨hello, [0, 0, 0, 0, 0], 7, 9⟩)
      = .ok (0, 5, 9, hello) ∧
    outputs (nop_decompress 1 2 5 5 ⟨hello, [0, 0, 0, 0, 0], 7, 9⟩)
      = outputs (nop_decompress 3 4 8 5 ⟨hello ++ [1, 2, 3], [0, 0, 0, 0, 0], 7, 9⟩) :=
  ⟨by decide, by decide,
    (callbacks_are_stateless 1 2 3 4 5 8 5 7 9 (hello ++ [1, 2, 3])
      ⟨hello, [0, 0, 0, 0, 0], 7, 9⟩ (by decide)).2.2.2.2.2.2.2.2.2⟩

/-- Claim C16 (the compression-failed branch is write-free).  For every call
of `nop_compress` with `dst_len < src_len`, the call returns 0 and only
`*compression_failed` is written, with 1: the destination, the source and
`*result_lenp` are exactly as before the call, so `result_len` still holds the
value the caller put there. -/
theorem compression_failed_branch_is_write_free (c s : Ptr) (src_len dst_len : Nat)
    (st : State) (h : dst_len < src_len) :
    ∃ st1 : State,
      nop_compress c s src_len dst_len st = .ok (0, st1) ∧
      st1.dst = st.dst ∧ st1.result_len = st.result_len ∧ st1.src = st.src ∧
      st1.compression_failed = 1 :=
  ⟨_, nop_compress_too_small c s src_len dst_len st h, rfl, rfl, rfl, rfl⟩

/-- Witness of C16: "hello" with a three-byte destination; `result_len` keeps
the value 7 it had before the call. -/
theorem compression_failed_branch_is_write_free_witness :
    (3 : Nat) < 5 ∧
    nop_compress 1 2 5 3 ⟨hello, [4, 5, 6], 7, 9⟩ = .ok (0, ⟨hello, [4, 5, 6], 7, 1⟩) ∧
    ∃ st1 : State,
      nop_compress 1 2 5 3 ⟨hello, [4, 5, 6], 7, 9⟩ = .ok (0, st1) ∧
      st1.dst = [4, 5, 6] ∧ st1.result_len = 7 ∧ st1.src = hello ∧
      st1.compression_failed = 1 :=
  ⟨by decide, by decide,
    compression_failed_branch_is_write_free 1 2 5 3 ⟨hello, [4, 5, 6], 7, 9⟩ (by decide)⟩

end NopCompress
